import Mathlib

/-!
Shallow embedding of the anchor relay server (src/server.go, src/main.go).

Machine integers: the Go code uses `uint64` for client identities and the
counters; we model them as `Nat` with explicit reduction modulo `2 ^ 64`
at the operations where Go wraps (the `++` on `nextClientId`).

JSON: packets are handled in Go through gjson/sjson on raw strings.  We
model a decoded JSON document as the inductive `JVal` and the gjson
accessors (`Get`, `Exists`, `String`, `Uint`, `Int`) as functions on it;
a payload that is not valid JSON is the `Payload.malformed` constructor.

State: maps (`onlineClients`, `rooms`, room `clients`) are association
lists updated with `ainsert`, which replaces the entry of an existing key
in place and appends a new key at the end — matching Go map/sjson update
semantics at the level of lookup.
-/

namespace Anchor

/-- Modulus of Go's `uint64`. -/
def U : Nat := 2 ^ 64

/-- `INACTIVITY_TIMEOUT = 5 * time.Minute` (server.go line 20), in nanoseconds. -/
def INACTIVITY_TIMEOUT : Nat := 5 * 60 * 1000000000

/-- Interval of the `cleanupInactiveRooms` ticker (server.go line 110), in nanoseconds. -/
def SWEEP_INTERVAL : Nat := 5 * 1000000000

/-- A decoded JSON value (the fragment gjson works over). -/
inductive JVal where
  | null
  | bool (b : Bool)
  | num (n : Int)
  | str (s : String)
  | obj (fields : List (String × JVal))
  | arr (elems : List JVal)

/-- Association-list update: replaces the entry of an existing key in
place, appends a new key at the end (Go map assignment / sjson.Set). -/
def ainsert {α β : Type} [BEq α] (k : α) (v : β) : List (α × β) → List (α × β)
  | [] => [(k, v)]
  | (k', v') :: rest => if k' == k then (k, v) :: rest else (k', v') :: ainsert k v rest

mutual

/-- Serialization of a `JVal` back to JSON text; models gjson's `Raw` for
object/array-valued results (string escaping is not modelled; no claim
depends on it). -/
def renderJVal : JVal → String
  | .null => "null"
  | .bool true => "true"
  | .bool false => "false"
  | .num n => toString n
  | .str s => "\"" ++ s ++ "\""
  | .obj fs => "\x7b" ++ renderFields fs ++ "\x7d"
  | .arr es => "[" ++ renderElems es ++ "]"

/-- Renders the fields of a JSON object, comma separated. -/
def renderFields : List (String × JVal) → String
  | [] => ""
  | [(k, v)] => "\"" ++ k ++ "\":" ++ renderJVal v
  | (k, v) :: rest => "\"" ++ k ++ "\":" ++ renderJVal v ++ "," ++ renderFields rest

/-- Renders the elements of a JSON array, comma separated. -/
def renderElems : List JVal → String
  | [] => ""
  | [v] => renderJVal v
  | v :: rest => renderJVal v ++ "," ++ renderElems rest

end

/-- `gjson.Get` for a single key: field lookup on an object, nonexistent
on every other value.  A present `null` field is a hit (gjson's `Exists`
is true for it since its `Raw` is nonempty). -/
def jget : JVal → String → Option JVal
  | .obj fields, k => List.lookup k fields
  | _, _ => none

/-- `gjson.Result.String()`: nonexistent and `null` yield `""`, booleans
their names, numbers their decimal text, strings themselves, and
object/array results their raw JSON. -/
def jstringOf : Option JVal → String
  | none => ""
  | some .null => ""
  | some (.bool true) => "true"
  | some (.bool false) => "false"
  | some (.num n) => toString n
  | some (.str s) => s
  | some (.obj fs) => renderJVal (.obj fs)
  | some (.arr es) => renderJVal (.arr es)

/-- `gjson.Result.Uint()` on the shapes the protocol uses: a numeric field
in `[0, 2^64)` is read exactly, a decimal string is parsed, `true` is 1.
Out-of-range numbers fall back to a float conversion in gjson that is
implementation-dependent; that fallback is modelled as 0 and no claim
depends on it. -/
def juint : Option JVal → Nat
  | some (.num n) => if 0 ≤ n ∧ n < (U : Int) then n.toNat else 0
  | some (.str s) =>
      match s.toNat? with
      | some m => if m < U then m else 0
      | none => 0
  | some (.bool true) => 1
  | some (.bool false) => 0
  | _ => 0

/-- `uint64(gjson.Result.Int())` for the integer-valued counters read by
`parseStats`: a numeric field is reduced modulo `2 ^ 64` (the composite of
gjson's signed-integer parse and Go's `uint64` conversion is
value-preserving mod `2 ^ 64` on integer decimals), everything else is the
gjson zero value 0. -/
def juint64OfInt : Option JVal → Nat
  | some (.num n) => (n % (U : Int)).toNat
  | some (.str s) =>
      match s.toNat? with
      | some m => m % U
      | none => 0
  | some (.bool true) => 1
  | _ => 0

/-- `sjson.Set` at a top-level key: replaces the value of an existing key
in place, appends a new key at the end; setting on a non-object document
produces a fresh object with just that key. -/
def jset (j : JVal) (k : String) (v : JVal) : JVal :=
  match j with
  | .obj fs => .obj (ainsert k v fs)
  | _ => .obj [(k, v)]

/-- The `Client` struct (client session).  The Go struct's `server` and
`room` pointers are modelled by the owning structures and the `roomId`
key; `conn` is an opaque connection handle identifier; `mu` is modelled by
the sequentialized state updates. -/
structure Client where
  id : Nat
  conn : Nat
  roomId : String
  team : String
  state : JVal
  lastActivity : Nat

/-- The `Room` struct: keyed client sessions, team ids, and the
last-activity timestamp read by the sweeper (nanoseconds). -/
structure Room where
  id : String
  clients : List (Nat × Client)
  teams : List String
  lastActivity : Nat

/-- The `Server` struct (server.go lines 23-31); the `listener` handle and
`mu` are not data. -/
structure Server where
  quietMode : Bool
  onlineClients : List (Nat × Client)
  rooms : List (String × Room)
  gamesCompleted : Nat
  nextClientId : Nat

/-- `NewServer` (server.go lines 33-41): empty maps, zero games, identity
counter at its compiled-in initial value 1. -/
def NewServer : Server :=
  { quietMode := false, onlineClients := [], rooms := [], gamesCompleted := 0, nextClientId := 1 }

/-- `parseStats` (server.go lines 73-91).  The input is the decoded
stats-file document: `none` models a missing or unreadable file (the read
error is logged but the function continues with empty content, on which
every gjson lookup is nonexistent) as well as an invalid document.  Both
counters are overwritten with `uint64(gjson.Get(...).Int())`. -/
def parseStats (doc : Option JVal) (s : Server) : Server :=
  { s with
      gamesCompleted := juint64OfInt (doc.bind (fun d => jget d "gamesComplete"))
      nextClientId := juint64OfInt (doc.bind (fun d => jget d "nextClientId")) }

/-- `saveStats` (server.go lines 93-107): the document written to
stats.json, built by four `sjson.Set`s on `JSON_TEMPLATE`.  The first
three keys exist in the template and are overwritten in place; the fourth,
`lastStatsHeartBeat` (capital B, unlike the template's
`lastStatsHeartbeat`), is new and is appended.  `nowText` is the
serialized `time.Now()`. -/
def saveStatsDoc (s : Server) (nowText : String) : JVal :=
  .obj [("gamesComplete", .num s.gamesCompleted),
        ("onlineCount", .num s.onlineClients.length),
        ("lastStatsHeartbeat", .str ""),
        ("nextClientId", .num s.nextClientId),
        ("lastStatsHeartBeat", .str nowText)]

/-- The STATS reply (server.go lines 200-207): `{"type":"STATS"}` with
`uniquePlayers`, `gamesCompleted` and `online` set from the server
state. -/
def statsReplyDoc (s : Server) : JVal :=
  .obj [("type", .str "STATS"),
        ("uniquePlayers", .num s.nextClientId),
        ("gamesCompleted", .num s.gamesCompleted),
        ("online", .num s.onlineClients.length)]

/-- One advance of the identity counter (server.go lines 246-250 and
258-263): `s.nextClientId++` with `uint64` wraparound, then skip the
reserved zero value if the increment wrapped. -/
def bump (c : Nat) : Nat :=
  if (c + 1) % U = 0 then 1 else (c + 1) % U

/-- The keys of the online-client mapping. -/
def onlineIds (s : Server) : List Nat := s.onlineClients.map Prod.fst

/-- The collision-avoidance loop of `findOrCreateClient` (server.go lines
253-264): while the candidate id is present in the online mapping, take
the counter as the next candidate and advance the counter.  The Go loop
is unbounded; the embedding uses explicit fuel, and
`resolveLoop_isSome_of_lt` below shows the fuel passed by
`resolveClientId` always suffices, i.e. the Go loop terminates. -/
def resolveLoop : Nat → Nat → Nat → List Nat → Option (Nat × Nat)
  | 0, _, _, _ => none
  | fuel + 1, cand, ctr, ids =>
      if cand ∈ ids then resolveLoop fuel ctr (bump ctr) ids else some (cand, ctr)

/-- The candidates examined by `resolveLoop` with the given fuel. -/
def candList : Nat → Nat → Nat → List Nat
  | 0, _, _ => []
  | fuel + 1, cand, ctr => cand :: candList fuel ctr (bump ctr)

/-- Identity resolution of `findOrCreateClient` (server.go lines 240-265):
a claimed id of zero (field absent or zero) means a fresh id is drawn from
the counter; then the collision-avoidance loop runs.  Returns the resolved
id and the new counter. -/
def resolveClientId (claimed ctr : Nat) (ids : List Nat) : Option (Nat × Nat) :=
  if claimed = 0 then resolveLoop (ids.length + 2) ctr (bump ctr) ids
  else resolveLoop (ids.length + 2) claimed ctr ids

/-- The `roomId` string taken from a handshake packet
(`gjson.Get(packet, "roomId").String()`, server.go line 303). -/
def roomKeyOf (packet : JVal) : String := jstringOf (jget packet "roomId")

/-- The team id taken from a handshake packet
(`gjson.Get(packet, "clientState.teamId").String()`, server.go line 268). -/
def teamKeyOf (packet : JVal) : String :=
  jstringOf ((jget packet "clientState").bind (fun cs => jget cs "teamId"))

/-- The state blob stored for a client (server.go line 273): the packet's
`clientState` with its `clientId` field set to the assigned id
(`sjson.Set` on an absent `clientState` yields a fresh object). -/
def stateBlobOf (packet : JVal) (cid : Nat) : JVal :=
  jset ((jget packet "clientState").getD (.obj [])) "clientId" (.num cid)

/-- Modelled from the spec: `NewRoom` is not under src/ (only its caller
at server.go line 308 is).  Per §4.3 room construction seeds the
last-activity timestamp at creation; the client and team mappings start
empty (§4.2 constructs the Client Session in `resolveClient`, not here).
The `clientId` and `packet` arguments of the Go call are taken but unused
by the model. -/
def NewRoom (roomId : String) (_clientId : Nat) (_packet : JVal) (now : Nat) : Room :=
  { id := roomId, clients := [], teams := [], lastActivity := now }

/-- Modelled from the spec: `Room.findOrCreateTeam` is not under src/
(only its caller at server.go line 268 is).  Per §4.3 team
lookup/creation is keyed by an arbitrary string id carried in the client's
state payload, an empty/absent id being a valid key; the team is created
on first request within the room.  The team is represented by its id. -/
def findOrCreateTeam (r : Room) (teamId : String) : String × Room :=
  if teamId ∈ r.teams then (teamId, r)
  else (teamId, { r with teams := teamId :: r.teams })

/-- `findOrCreateRoom` (server.go lines 302-314): look the room id up in
the room mapping, creating and registering a new room when absent. -/
def findOrCreateRoom (s : Server) (packet : JVal) (cid now : Nat) : Room × Server :=
  let rk := roomKeyOf packet
  match List.lookup rk s.rooms with
  | some r => (r, s)
  | none =>
      let r := NewRoom rk cid packet now
      (r, { s with rooms := ainsert rk r s.rooms })

/-- The attach phase of `findOrCreateClient` (server.go lines 267-299),
run with the already-resolved identity: resolve room and team, then
either update the session already present in the room in place
(connection handle, state blob, team, activity timestamp — the id field
is untouched) or construct a new session; register the session in the
room's client mapping and the online-client mapping.  Go mutates the
shared session/room objects through pointers; the functional model writes
the updated room back under the key it was found under. -/
def attachClient (s : Server) (packet : JVal) (conn now cid : Nat) : Client × Server :=
  let rk := roomKeyOf packet
  let rs := findOrCreateRoom s packet cid now
  let tr := findOrCreateTeam rs.1 (teamKeyOf packet)
  let st := stateBlobOf packet cid
  match List.lookup cid tr.2.clients with
  | some old =>
      let c : Client := { old with conn := conn, state := st, team := tr.1, lastActivity := now }
      let room2 := { tr.2 with clients := ainsert cid c tr.2.clients }
      (c, { rs.2 with rooms := ainsert rk room2 rs.2.rooms,
                      onlineClients := ainsert cid c rs.2.onlineClients })
  | none =>
      let c : Client := { id := cid, conn := conn, roomId := rk, team := tr.1,
                          state := st, lastActivity := now }
      let room2 := { tr.2 with clients := ainsert cid c tr.2.clients }
      (c, { rs.2 with rooms := ainsert rk room2 rs.2.rooms,
                      onlineClients := ainsert cid c rs.2.onlineClients })

/-- `findOrCreateClient` (server.go lines 239-300): resolve the identity
under the registry lock (committing the advanced counter), then attach.
`none` models the unbounded Go collision loop not returning, shown
unreachable below whenever a free identity exists. -/
def findOrCreateClient (s : Server) (packet : JVal) (conn now : Nat) :
    Option (Client × Server) :=
  let claimed := juint (jget packet "clientId")
  match resolveClientId claimed s.nextClientId (onlineIds s) with
  | none => none
  | some res =>
      some (attachClient { s with nextClientId := res.2 } packet conn now res.1)

/-- A sequence of handshakes processed back to back (each holds the locks
for its critical sections, so concurrent handshakes serialize); returns
the list of identities assigned, in order. -/
def runFreshHandshakes (s : Server) : List (JVal × Nat × Nat) → Option (List Nat × Server)
  | [] => some ([], s)
  | (p, conn, now) :: rest =>
      match findOrCreateClient s p conn now with
      | none => none
      | some cs =>
          match runFreshHandshakes cs.2 rest with
          | none => none
          | some is => some (cs.1.id :: is.1, is.2)

/-- An observable side effect of a maintenance pass. -/
inductive Effect where
  | logLine (msg : String)
  | sendPacket (conn : Nat) (payload : JVal)

/-- One pass of the `cleanupInactiveRooms` loop body (server.go lines
118-127): every room whose last-activity age exceeds `INACTIVITY_TIMEOUT`
is deleted from the room mapping with a log line; nothing else is touched
and nothing is written to any connection. -/
def cleanupInactiveRoomsOnce (now : Nat) (s : Server) : Server × List Effect :=
  ({ s with rooms := s.rooms.filter (fun rp => !decide (now - rp.2.lastActivity > INACTIVITY_TIMEOUT)) },
   (s.rooms.filter (fun rp => decide (now - rp.2.lastActivity > INACTIVITY_TIMEOUT))).map
     (fun rp => Effect.logLine ("Room " ++ rp.1 ++ " has been inactive for too long, deleting it")))

/-- A framed payload drawn from the connection: either text that is not
valid JSON (`gjson.Valid` fails) or a decoded JSON document. -/
inductive Payload where
  | malformed (raw : String)
  | val (j : JVal)

/-- A payload failing the two checks at server.go lines 187-196: not
valid JSON, or its `type` field does not exist. -/
def badPayload : Payload → Prop
  | .malformed _ => True
  | .val j => jget j "type" = none

/-- What the read-loop body did with one payload, mirroring the branches
of `handleConnection` (server.go lines 184-221). -/
inductive Action where
  | dropInvalidJson
  | dropMissingType
  | statsReply (reply : JVal)
  | dropNeedHandshake
  | didHandshake (id : Nat)
  | forwarded
  | stalled

/-- One iteration of the read loop of `handleConnection` (server.go lines
184-221) on the current payload: discard invalid JSON; discard payloads
whose `type` field does not exist; answer STATS from the counters without
touching any state; before handshake discard everything but HANDSHAKE;
process a HANDSHAKE through `findOrCreateClient`; forward everything else
to the session's `handlePacket`.  `handler` stands for
`Client.handlePacket`, which is not under src/ and is universally
quantified in the theorems; `cur` is the loop's `client` variable,
by identity.  The loop itself never closes the connection: closure happens
only when the scanner is exhausted, after the whole stream is consumed. -/
def connStep (handler : Nat → JVal → Server → Server) (s : Server) (cur : Option Nat)
    (p : Payload) (conn now : Nat) : Server × Option Nat × Action :=
  match p with
  | .malformed _ => (s, cur, .dropInvalidJson)
  | .val j =>
      match jget j "type" with
      | none => (s, cur, .dropMissingType)
      | some tv =>
          let t := jstringOf (some tv)
          if t = "STATS" then (s, cur, .statsReply (statsReplyDoc s))
          else
            match cur with
            | none =>
                if t = "HANDSHAKE" then
                  match findOrCreateClient s j conn now with
                  | some cs => (cs.2, some cs.1.id, .didHandshake cs.1.id)
                  | none => (s, none, .stalled)
                else (s, none, .dropNeedHandshake)
            | some cid => (handler cid j s, some cid, .forwarded)

/-- The read loop over a whole stream of payloads: one `connStep` per
payload, every payload consumed. -/
def runConn (handler : Nat → JVal → Server → Server) (conn : Nat) (s : Server)
    (cur : Option Nat) : List (Payload × Nat) → Server × Option Nat × List Action
  | [] => (s, cur, [])
  | (p, now) :: rest =>
      let st := connStep handler s cur p conn now
      let tail := runConn handler conn st.1 st.2.1 rest
      (tail.1, tail.2.1, st.2.2 :: tail.2.2)

/-- Whether the read-loop body discarded the payload without processing
it (the `continue` branches that only log). -/
def isDropped : Action → Bool
  | .dropInvalidJson => true
  | .dropMissingType => true
  | .dropNeedHandshake => true
  | _ => false

/-- An operation on one client session's mutex. -/
inductive LockOp where
  | acquire
  | release

/-- Checks a straight-line trace of operations on one mutex performed by
one goroutine: `false` exactly when some release happens while the mutex
is not held (Go's `sync.Mutex` faults at runtime on such a release). -/
def lockTraceOk : List LockOp → Nat → Bool
  | [], _ => true
  | .acquire :: rest, held => lockTraceOk rest (held + 1)
  | .release :: _, 0 => false
  | .release :: rest, held + 1 => lockTraceOk rest held

/-- The operations the operator `disable <clientId>` path performs on the
found client's mutex (main.go lines 142-146): `client.mu.Unlock()` at line
143 and again at line 145, with no acquisition. -/
def disableFoundClientMuOps : List LockOp := [.release, .release]

/-- The operations the operator `message <clientId>` path performs on the
found client's mutex (main.go lines 168-171): `Lock` then `Unlock`. -/
def messageFoundClientMuOps : List LockOp := [.acquire, .release]

/-- Registry invariant on the counters (§3): the next-identity counter is
a nonzero `uint64`, and the reserved identity 0 is not online. -/
def Inv (s : Server) : Prop :=
  s.nextClientId ≠ 0 ∧ s.nextClientId < U ∧ 0 ∉ onlineIds s

/-- Well-formedness of the room mappings: each room's client mapping keys
every session by its own identity. -/
def WFRooms (s : Server) : Prop :=
  ∀ rp ∈ s.rooms, ∀ cp ∈ rp.2.clients, cp.2.id = cp.1

/-! Helper lemmas about the association-list operations and the identity
counter, shared by the claim theorems below. -/

theorem lookup_ainsert_self {α β : Type} [BEq α] [LawfulBEq α] (k : α) (v : β) :
    ∀ l : List (α × β), List.lookup k (ainsert k v l) = some v := by
  intro l
  induction l with
  | nil => simp [ainsert]
  | cons hd tl ih =>
      obtain ⟨k', v'⟩ := hd
      rw [ainsert]
      by_cases h : k' = k
      · subst h
        simp
      · have h1 : (k' == k) = false := by simp [h]
        have h2 : (k == k') = false := by simp [Ne.symm h]
        simp [h1, List.lookup_cons, h2, ih]

theorem lookup_mem {α β : Type} [BEq α] [LawfulBEq α] {k : α} {v : β} :
    ∀ {l : List (α × β)}, List.lookup k l = some v → (k, v) ∈ l := by
  intro l
  induction l with
  | nil => simp
  | cons hd tl ih =>
      obtain ⟨a, b⟩ := hd
      intro h
      rw [List.lookup_cons] at h
      by_cases hka : k = a
      · subst hka
        simp only [beq_self_eq_true, Option.some.injEq] at h
        exact List.mem_cons.2 (Or.inl (by rw [h]))
      · have h2 : (k == a) = false := by simp [hka]
        rw [h2] at h
        exact List.mem_cons.2 (Or.inr (ih h))

theorem mem_ainsert {α β : Type} [BEq α] {x : α × β} {k : α} {v : β} :
    ∀ {l : List (α × β)}, x ∈ ainsert k v l → x = (k, v) ∨ x ∈ l := by
  intro l
  induction l with
  | nil => simp [ainsert]
  | cons hd tl ih =>
      intro h
      rw [ainsert] at h
      split at h
      · rcases List.mem_cons.1 h with h1 | h1
        · exact Or.inl h1
        · exact Or.inr (List.mem_cons.2 (Or.inr h1))
      · rcases List.mem_cons.1 h with h1 | h1
        · exact Or.inr (List.mem_cons.2 (Or.inl h1))
        · rcases ih h1 with h2 | h2
          · exact Or.inl h2
          · exact Or.inr (List.mem_cons.2 (Or.inr h2))

theorem mem_fst_ainsert {α β : Type} [BEq α] [LawfulBEq α] (a k : α) (v : β) :
    ∀ l : List (α × β), a ∈ (ainsert k v l).map Prod.fst ↔ a = k ∨ a ∈ l.map Prod.fst := by
  intro l
  induction l with
  | nil => simp [ainsert]
  | cons hd tl ih =>
      obtain ⟨k', v'⟩ := hd
      rw [ainsert]
      by_cases h : k' = k
      · subst h
        simp only [beq_self_eq_true, if_true, List.map_cons, List.mem_cons]
        constructor
        · rintro (h1 | h1)
          · exact Or.inl h1
          · exact Or.inr (Or.inr h1)
        · rintro (h1 | h1 | h1)
          · exact Or.inl h1
          · exact Or.inl h1
          · exact Or.inr h1
      · have hb : (k' == k) = false := by simp [h]
        simp only [hb, Bool.false_eq_true, if_false, List.map_cons, List.mem_cons, ih]
        tauto

theorem length_ainsert_le {α β : Type} [BEq α] (k : α) (v : β) :
    ∀ l : List (α × β), (ainsert k v l).length ≤ l.length + 1 := by
  intro l
  induction l with
  | nil => simp [ainsert]
  | cons hd tl ih =>
      rw [ainsert]
      split
      · simp
      · simpa using Nat.succ_le_succ ih

theorem U_pos : 0 < U := by norm_num [U]

theorem two_le_U : 2 ≤ U := by norm_num [U]

theorem bump_pos (c : Nat) : 1 ≤ bump c := by
  rw [bump]
  split
  · exact le_refl 1
  · omega

theorem bump_lt (c : Nat) : bump c < U := by
  rw [bump]
  split
  · exact lt_of_lt_of_le one_lt_two two_le_U
  · exact Nat.mod_lt _ U_pos

theorem bump_iter_bounds (c : Nat) (hc1 : 1 ≤ c) (hcU : c < U) :
    ∀ k : Nat, 1 ≤ bump^[k] c ∧ bump^[k] c < U ∧
      (bump^[k] c - 1) % (U - 1) = (c - 1 + k) % (U - 1) := by
  intro k
  induction k with
  | zero => simpa using ⟨hc1, hcU⟩
  | succ k ih =>
      obtain ⟨hd1, hdU, hmod⟩ := ih
      rw [Function.iterate_succ_apply']
      refine ⟨bump_pos _, bump_lt _, ?_⟩
      have hU2 := two_le_U
      have step : (bump (bump^[k] c) - 1) % (U - 1) = bump^[k] c % (U - 1) := by
        rcases Nat.lt_or_ge (bump^[k] c) (U - 1) with hlt | hge
        · have hb : bump (bump^[k] c) = bump^[k] c + 1 := by
            rw [bump]
            have h1 : bump^[k] c + 1 < U := by omega
            rw [Nat.mod_eq_of_lt h1]
            simp [Nat.succ_ne_zero]
          rw [hb]
          simp
        · have heq : bump^[k] c = U - 1 := by omega
          have hb : bump (bump^[k] c) = 1 := by
            rw [bump, heq]
            have : U - 1 + 1 = U := by omega
            rw [this, Nat.mod_self]
            simp
          rw [hb, heq, Nat.mod_self]
          simp
      calc (bump (bump^[k] c) - 1) % (U - 1)
          = bump^[k] c % (U - 1) := step
        _ = (bump^[k] c - 1 + 1) % (U - 1) := by rw [Nat.sub_add_cancel hd1]
        _ = ((bump^[k] c - 1) % (U - 1) + 1 % (U - 1)) % (U - 1) := Nat.add_mod _ _ _
        _ = ((c - 1 + k) % (U - 1) + 1 % (U - 1)) % (U - 1) := by rw [hmod]
        _ = (c - 1 + k + 1) % (U - 1) := (Nat.add_mod _ _ _).symm
        _ = (c - 1 + (k + 1)) % (U - 1) := by rw [Nat.add_assoc]

theorem bump_iter_inj (c : Nat) (hc1 : 1 ≤ c) (hcU : c < U) :
    ∀ i j : Nat, i < U - 1 → j < U - 1 → bump^[i] c = bump^[j] c → i = j := by
  intro i j hi hj h
  have hmi := (bump_iter_bounds c hc1 hcU i).2.2
  have hmj := (bump_iter_bounds c hc1 hcU j).2.2
  rw [h] at hmi
  have hmods : (c - 1 + i) % (U - 1) = (c - 1 + j) % (U - 1) := by rw [← hmi, hmj]
  have hcancel : i % (U - 1) = j % (U - 1) := Nat.ModEq.add_left_cancel' (c - 1) hmods
  rwa [Nat.mod_eq_of_lt hi, Nat.mod_eq_of_lt hj] at hcancel

theorem candList_eq_map : ∀ (f c : Nat),
    candList f c (bump c) = (List.range f).map (fun i => bump^[i] c) := by
  intro f
  induction f with
  | zero => intro c; rfl
  | succ f ih =>
      intro c
      rw [candList, ih (bump c), List.range_succ_eq_map]
      simp [List.map_map, Function.comp_def, Function.iterate_succ_apply]

theorem resolveLoop_none_subset {ids : List Nat} : ∀ (f cand ctr : Nat),
    resolveLoop f cand ctr ids = none → ∀ x ∈ candList f cand ctr, x ∈ ids := by
  intro f
  induction f with
  | zero => intro cand ctr _ x hx; simp [candList] at hx
  | succ f ih =>
      intro cand ctr h x hx
      rw [resolveLoop] at h
      rw [candList] at hx
      by_cases hc : cand ∈ ids
      · rw [if_pos hc] at h
        rcases List.mem_cons.1 hx with rfl | hx'
        · exact hc
        · exact ih ctr (bump ctr) h x hx'
      · rw [if_neg hc] at h
        exact absurd h (by simp)

theorem resolveLoop_some_spec {ids : List Nat} : ∀ (f cand ctr : Nat) (res : Nat × Nat),
    cand ≠ 0 → ctr ≠ 0 → ctr < U → resolveLoop f cand ctr ids = some res →
    res.1 ∉ ids ∧ res.1 ≠ 0 ∧ res.2 ≠ 0 ∧ res.2 < U := by
  intro f
  induction f with
  | zero => intro cand ctr res _ _ _ h; exact absurd h (by simp [resolveLoop])
  | succ f ih =>
      intro cand ctr res hcand hctr1 hctrU h
      rw [resolveLoop] at h
      by_cases hc : cand ∈ ids
      · rw [if_pos hc] at h
        exact ih ctr (bump ctr) res hctr1 (by have := bump_pos ctr; omega) (bump_lt ctr) h
      · rw [if_neg hc] at h
        simp only [Option.some.injEq] at h
        subst h
        exact ⟨hc, hcand, hctr1, hctrU⟩

theorem resolveLoop_isSome (ids : List Nat) (cand ctr : Nat) (hctr1 : 1 ≤ ctr)
    (hctrU : ctr < U) (hlen : ids.length + 1 ≤ U - 1) :
    (resolveLoop (ids.length + 2) cand ctr ids).isSome := by
  cases hres : resolveLoop (ids.length + 2) cand ctr ids with
  | some res => rfl
  | none =>
      exfalso
      have hsub := resolveLoop_none_subset _ _ _ hres
      have htail : ∀ x ∈ candList (ids.length + 1) ctr (bump ctr), x ∈ ids := by
        intro x hx
        exact hsub x (by rw [candList]; exact List.mem_cons.2 (Or.inr hx))
      rw [candList_eq_map] at htail
      have hnodup : ((List.range (ids.length + 1)).map (fun i => bump^[i] ctr)).Nodup := by
        refine List.Nodup.map_on ?_ (List.nodup_range _)
        intro i hi j hj hij
        have hi' : i < U - 1 := lt_of_lt_of_le (List.mem_range.1 hi) hlen
        have hj' : j < U - 1 := lt_of_lt_of_le (List.mem_range.1 hj) hlen
        exact bump_iter_inj ctr hctr1 hctrU i j hi' hj' hij
      have hsubp : List.Subperm ((List.range (ids.length + 1)).map (fun i => bump^[i] ctr)) ids :=
        hnodup.subperm (fun x hx => htail x hx)
      have hle := hsubp.length_le
      rw [List.length_map, List.length_range] at hle
      omega

theorem resolveClientId_spec (claimed ctr : Nat) (ids : List Nat) (res : Nat × Nat)
    (hctr1 : ctr ≠ 0) (hctrU : ctr < U) (h : resolveClientId claimed ctr ids = some res) :
    res.1 ∉ ids ∧ res.1 ≠ 0 ∧ res.2 ≠ 0 ∧ res.2 < U := by
  rw [resolveClientId] at h
  by_cases hc : claimed = 0
  · rw [if_pos hc] at h
    exact resolveLoop_some_spec _ _ _ _ hctr1
      (by have := bump_pos ctr; omega) (bump_lt ctr) h
  · rw [if_neg hc] at h
    exact resolveLoop_some_spec _ _ _ _ hc hctr1 hctrU h

theorem resolveClientId_isSome (claimed ctr : Nat) (ids : List Nat) (hctr1 : 1 ≤ ctr)
    (hctrU : ctr < U) (hlen : ids.length + 1 ≤ U - 1) :
    (resolveClientId claimed ctr ids).isSome := by
  rw [resolveClientId]
  by_cases hc : claimed = 0
  · rw [if_pos hc]
    exact resolveLoop_isSome ids ctr (bump ctr) (bump_pos ctr) (bump_lt ctr) hlen
  · rw [if_neg hc]
    exact resolveLoop_isSome ids claimed ctr hctr1 hctrU hlen

theorem findOrCreateRoom_projections (s : Server) (p : JVal) (cid now : Nat) :
    (findOrCreateRoom s p cid now).2.onlineClients = s.onlineClients ∧
    (findOrCreateRoom s p cid now).2.nextClientId = s.nextClientId ∧
    (findOrCreateRoom s p cid now).2.gamesCompleted = s.gamesCompleted := by
  rw [findOrCreateRoom]
  cases List.lookup (roomKeyOf p) s.rooms <;> simp

theorem findOrCreateRoom_cases (s : Server) (p : JVal) (cid now : Nat) :
    List.lookup (roomKeyOf p) s.rooms = some (findOrCreateRoom s p cid now).1 ∨
    (findOrCreateRoom s p cid now).1 = NewRoom (roomKeyOf p) cid p now := by
  rw [findOrCreateRoom]
  cases h : List.lookup (roomKeyOf p) s.rooms <;> simp [h]

theorem findOrCreateRoom_rooms_sub (s : Server) (p : JVal) (cid now : Nat) :
    ∀ rp ∈ (findOrCreateRoom s p cid now).2.rooms,
      rp ∈ s.rooms ∨ rp = (roomKeyOf p, NewRoom (roomKeyOf p) cid p now) := by
  rw [findOrCreateRoom]
  cases h : List.lookup (roomKeyOf p) s.rooms with
  | some r => intro rp hrp; exact Or.inl hrp
  | none =>
      intro rp hrp
      simp only at hrp
      rcases mem_ainsert hrp with h1 | h1
      · exact Or.inr h1
      · exact Or.inl h1

theorem findOrCreateTeam_fst (r : Room) (t : String) : (findOrCreateTeam r t).1 = t := by
  rw [findOrCreateTeam]
  split <;> rfl

theorem findOrCreateTeam_clients (r : Room) (t : String) :
    (findOrCreateTeam r t).2.clients = r.clients := by
  rw [findOrCreateTeam]
  split <;> rfl

theorem attachClient_client_id (s : Server) (p : JVal) (conn now cid : Nat)
    (hWF : WFRooms s) : (attachClient s p conn now cid).1.id = cid := by
  rw [attachClient]
  cases h : List.lookup cid (findOrCreateTeam (findOrCreateRoom s p cid now).1
      (teamKeyOf p)).2.clients with
  | none => rfl
  | some old =>
      simp only
      rw [findOrCreateTeam_clients] at h
      have hmem := lookup_mem h
      rcases findOrCreateRoom_cases s p cid now with hc | hc
      · exact hWF _ (lookup_mem hc) _ hmem
      · rw [hc] at hmem
        simp [NewRoom] at hmem

theorem attachClient_online (s : Server) (p : JVal) (conn now cid : Nat) :
    (attachClient s p conn now cid).2.onlineClients =
      ainsert cid (attachClient s p conn now cid).1 s.onlineClients := by
  rw [attachClient]
  cases h : List.lookup cid (findOrCreateTeam (findOrCreateRoom s p cid now).1
      (teamKeyOf p)).2.clients <;>
    simp [(findOrCreateRoom_projections s p cid now).1]

theorem attachClient_counters (s : Server) (p : JVal) (conn now cid : Nat) :
    (attachClient s p conn now cid).2.nextClientId = s.nextClientId ∧
    (attachClient s p conn now cid).2.gamesCompleted = s.gamesCompleted := by
  rw [attachClient]
  cases h : List.lookup cid (findOrCreateTeam (findOrCreateRoom s p cid now).1
      (teamKeyOf p)).2.clients <;>
    simp [(findOrCreateRoom_projections s p cid now).2.1,
          (findOrCreateRoom_projections s p cid now).2.2]

theorem attachClient_WF (s : Server) (p : JVal) (conn now cid : Nat) (hWF : WFRooms s) :
    WFRooms (attachClient s p conn now cid).2 := by
  have hid := attachClient_client_id s p conn now cid hWF
  have hroomWF : ∀ cp ∈ (findOrCreateTeam (findOrCreateRoom s p cid now).1
      (teamKeyOf p)).2.clients, cp.2.id = cp.1 := by
    rw [findOrCreateTeam_clients]
    rcases findOrCreateRoom_cases s p cid now with hc | hc
    · exact hWF _ (lookup_mem hc)
    · rw [hc]; simp [NewRoom]
  have hold : ∀ rp ∈ (findOrCreateRoom s p cid now).2.rooms, ∀ cp ∈ rp.2.clients,
      cp.2.id = cp.1 := by
    intro rp hrp
    rcases findOrCreateRoom_rooms_sub s p cid now rp hrp with h1 | h1
    · exact hWF rp h1
    · rw [h1]; simp [NewRoom]
  rw [attachClient] at hid ⊢
  cases h : List.lookup cid (findOrCreateTeam (findOrCreateRoom s p cid now).1
      (teamKeyOf p)).2.clients with
  | none =>
      rw [h] at hid
      intro rp hrp cp hcp
      simp only at hrp hcp ⊢
      rcases mem_ainsert hrp with h1 | h1
      · subst h1
        simp only at hcp
        rcases mem_ainsert hcp with h2 | h2
        · rw [h2]
        · exact hroomWF _ h2
      · exact hold _ h1 _ hcp
  | some old =>
      rw [h] at hid
      intro rp hrp cp hcp
      simp only at hrp hcp ⊢
      rcases mem_ainsert hrp with h1 | h1
      · subst h1
        simp only at hcp
        rcases mem_ainsert hcp with h2 | h2
        · rw [h2]
          exact hid
        · exact hroomWF _ h2
      · exact hold _ h1 _ hcp

theorem findOrCreateClient_spec (s : Server) (p : JVal) (conn now : Nat)
    (c : Client) (s' : Server) (hInv : Inv s) (hWF : WFRooms s)
    (h : findOrCreateClient s p conn now = some (c, s')) :
    c.id ∉ onlineIds s ∧ c.id ≠ 0 ∧ Inv s' ∧ WFRooms s' ∧
    (∀ a ∈ onlineIds s, a ∈ onlineIds s') ∧ c.id ∈ onlineIds s' ∧
    (onlineIds s').length ≤ (onlineIds s).length + 1 := by
  obtain ⟨h1, h2, h3⟩ := hInv
  rw [findOrCreateClient] at h
  cases hres : resolveClientId (juint (jget p "clientId")) s.nextClientId (onlineIds s) with
  | none => rw [hres] at h; exact absurd h (by simp)
  | some res =>
      rw [hres] at h
      simp only [Option.some.injEq] at h
      obtain ⟨hr1, hr2, hr3, hr4⟩ :=
        resolveClientId_spec _ _ _ _ h1 h2 hres
      set s1 : Server := { s with nextClientId := res.2 } with hs1
      have hWF1 : WFRooms s1 := hWF
      have honline1 : onlineIds s1 = onlineIds s := rfl
      have hcid : c.id = res.1 := by
        have := attachClient_client_id s1 p conn now res.1 hWF1
        rw [h] at this
        simpa using this
      have honline' : s'.onlineClients = ainsert res.1 c s1.onlineClients := by
        have := attachClient_online s1 p conn now res.1
        rw [h] at this
        simpa using this
      have hmemIff : ∀ a, a ∈ onlineIds s' ↔ a = res.1 ∨ a ∈ onlineIds s := by
        intro a
        rw [onlineIds, honline']
        exact mem_fst_ainsert a res.1 c s1.onlineClients
      have hcounters : s'.nextClientId = res.2 ∧ s'.gamesCompleted = s1.gamesCompleted := by
        have := attachClient_counters s1 p conn now res.1
        rw [h] at this
        simpa using this
      refine ⟨?_, ?_, ⟨?_, ?_, ?_⟩, ?_, ?_, ?_, ?_⟩
      · rw [hcid]; exact hr1
      · rw [hcid]; exact hr2
      · rw [hcounters.1]; exact hr3
      · rw [hcounters.1]; exact hr4
      · intro h0
        rcases (hmemIff 0).1 h0 with he | he
        · exact hr2 he.symm
        · exact h3 he
      · have := attachClient_WF s1 p conn now res.1 hWF1
        rw [h] at this
        exact this
      · intro a ha; exact (hmemIff a).2 (Or.inr ha)
      · rw [hcid]; exact (hmemIff res.1).2 (Or.inl rfl)
      · have hlen2 := length_ainsert_le res.1 c s1.onlineClients
        have hlen3 : (onlineIds s).length = s1.onlineClients.length := by
          simp [onlineIds]
        rw [onlineIds, honline', List.length_map]
        omega

theorem findOrCreateClient_isSome (s : Server) (p : JVal) (conn now : Nat)
    (hInv : Inv s) (hlen : (onlineIds s).length + 1 ≤ U - 1) :
    ∃ c s', findOrCreateClient s p conn now = some (c, s') := by
  obtain ⟨h1, h2, _⟩ := hInv
  have hsome := resolveClientId_isSome (juint (jget p "clientId")) s.nextClientId
    (onlineIds s) (Nat.one_le_iff_ne_zero.2 h1) h2 hlen
  rw [findOrCreateClient]
  cases hres : resolveClientId (juint (jget p "clientId")) s.nextClientId (onlineIds s) with
  | none => rw [hres] at hsome; exact absurd hsome (by simp)
  | some res => exact ⟨_, _, rfl⟩

theorem runFreshHandshakes_spec :
    ∀ (inputs : List (JVal × Nat × Nat)) (s : Server), Inv s → WFRooms s →
    (onlineIds s).length + inputs.length + 1 ≤ U - 1 →
    ∃ ids s', runFreshHandshakes s inputs = some (ids, s') ∧
      ids.length = inputs.length ∧ ids.Nodup ∧
      (∀ i ∈ ids, i ≠ 0) ∧ (∀ i ∈ ids, i ∉ onlineIds s) := by
  intro inputs
  induction inputs with
  | nil =>
      intro s _ _ _
      exact ⟨[], s, rfl, rfl, List.nodup_nil, by simp, by simp⟩
  | cons x rest ih =>
      intro s hInv hWF hlen
      obtain ⟨p, conn, now⟩ := x
      obtain ⟨c, s1, hc⟩ := findOrCreateClient_isSome s p conn now hInv
        (by simp at hlen ⊢; omega)
      obtain ⟨hni, hnz, hInv1, hWF1, hmono, hmem, hlen1⟩ :=
        findOrCreateClient_spec s p conn now c s1 hInv hWF hc
      obtain ⟨ids, s', hrun, hl, hnd, hz, hnin⟩ := ih s1 hInv1 hWF1 (by simp at hlen ⊢; omega)
      refine ⟨c.id :: ids, s', ?_, by simp [hl], ?_, ?_, ?_⟩
      · simp only [runFreshHandshakes, hc, hrun]
      · rw [List.nodup_cons]
        refine ⟨fun hin => ?_, hnd⟩
        exact hnin c.id hin hmem
      · intro i hi
        rcases List.mem_cons.1 hi with rfl | hi'
        · exact hnz
        · exact hz i hi'
      · intro i hi
        rcases List.mem_cons.1 hi with rfl | hi'
        · exact hni
        · intro hin
          exact hnin i hi' (hmono i hin)

theorem runConn_length (handler : Nat → JVal → Server → Server) (conn : Nat) :
    ∀ (l : List (Payload × Nat)) (s : Server) (cur : Option Nat),
      (runConn handler conn s cur l).2.2.length = l.length := by
  intro l
  induction l with
  | nil => intro s cur; rfl
  | cons x rest ih =>
      intro s cur
      obtain ⟨p, now⟩ := x
      simp [runConn, ih]

/-! The claim theorems. -/

/-- C1: the claim states that every identity assigned through
`findOrCreateClient` is non-zero and that the next-identity counter never
equals zero, including after the counter has been seeded from the stats
file at startup.  The code violates this: when the stats file is missing
or unreadable, `parseStats` logs the read error but continues and seeds
`nextClientId` with the gjson zero value 0, and a subsequent fresh
handshake is then handed identity 0 (the collision loop does not reject
it, as 0 is never online). -/
theorem c1_seeding_zero_counter_hands_out_identity_zero :
    (parseStats none NewServer).nextClientId = 0 ∧
    ((findOrCreateClient (parseStats none NewServer)
        (.obj [("type", .str "HANDSHAKE"), ("clientId", .num 0), ("roomId", .str "r1")])
        7 100).map (fun cs => cs.1.id)) = some 0 :=
  ⟨rfl, rfl⟩

/-- C2: identity resolution never returns an identity present in the
online-client mapping (first conjunct, the collision-avoidance loop of
server.go lines 253-264 for an arbitrary claimed id), and from any state
satisfying the counter invariant every sequence of handshakes with the
clientId field unset or zero is assigned pairwise distinct non-zero
identities, none of them previously online (second conjunct). -/
theorem c2_fresh_handshake_identities_distinct_nonzero :
    (∀ (claimed ctr : Nat) (ids : List Nat) (res : Nat × Nat), ctr ≠ 0 → ctr < U →
      resolveClientId claimed ctr ids = some res → res.1 ∉ ids) ∧
    (∀ (inputs : List (JVal × Nat × Nat)) (s : Server), Inv s → WFRooms s →
      (∀ x ∈ inputs, juint (jget x.1 "clientId") = 0) →
      (onlineIds s).length + inputs.length + 1 ≤ U - 1 →
      ∃ ids s', runFreshHandshakes s inputs = some (ids, s') ∧
        ids.length = inputs.length ∧ ids.Nodup ∧ (∀ i ∈ ids, i ≠ 0) ∧
        (∀ i ∈ ids, i ∉ onlineIds s)) := by
  constructor
  · intro claimed ctr ids res h1 h2 h
    exact (resolveClientId_spec claimed ctr ids res h1 h2 h).1
  · intro inputs s hInv hWF _ hlen
    exact runFreshHandshakes_spec inputs s hInv hWF hlen

/-- Witness for C2, at the fresh server, a colliding claimed id, and two
fresh handshakes. -/
theorem c2_witness :
    ((1 : Nat) ≠ 0 ∧ (1 : Nat) < U ∧ resolveClientId 5 1 [5] = some (1, 2)) ∧
    (1 : Nat) ∉ ([5] : List Nat) ∧
    (Inv NewServer ∧ WFRooms NewServer ∧
      (onlineIds NewServer).length + 2 + 1 ≤ U - 1) ∧
    (∃ ids s', runFreshHandshakes NewServer
        [(.obj [("type", .str "HANDSHAKE"), ("clientId", .num 0), ("roomId", .str "a")], 1, 10),
         (.obj [("type", .str "HANDSHAKE"), ("clientId", .num 0), ("roomId", .str "a")], 2, 20)] =
        some (ids, s') ∧ ids.length = 2 ∧ ids.Nodup ∧ (∀ i ∈ ids, i ≠ 0) ∧
        (∀ i ∈ ids, i ∉ onlineIds NewServer)) :=
  ⟨⟨by decide, by decide, rfl⟩,
   c2_fresh_handshake_identities_distinct_nonzero.1 5 1 [5] (1, 2) (by decide) (by decide) rfl,
   ⟨⟨by decide, by decide, by decide⟩, (by intro rp hrp; cases hrp), by decide⟩,
   c2_fresh_handshake_identities_distinct_nonzero.2 _ NewServer
     ⟨by decide, by decide, by decide⟩ (by intro rp hrp; cases hrp)
     (by decide) (by decide)⟩

/-- C4: the claim states that with a missing or unreadable stats file the
load is non-fatal and the server keeps its defaults, zero games completed
and identity counter 1 (the value `NewServer` sets).  The code violates
the counter half: `parseStats` logs the read failure but does not return,
and then overwrites the counter with the gjson zero value, leaving
`nextClientId = 0` rather than 1 (games completed coincidentally stays
0). -/
theorem c4_missing_stats_file_zeroes_identity_counter :
    NewServer.nextClientId = 1 ∧ NewServer.gamesCompleted = 0 ∧
    (parseStats none NewServer).gamesCompleted = 0 ∧
    (parseStats none NewServer).nextClientId = 0 :=
  ⟨rfl, rfl, rfl, rfl⟩

theorem parseStats_saveStats_fields (s z : Server) (t : String)
    (hg : s.gamesCompleted < U) (hn : s.nextClientId < U) :
    (parseStats (some (saveStatsDoc s t)) z).gamesCompleted = s.gamesCompleted ∧
    (parseStats (some (saveStatsDoc s t)) z).nextClientId = s.nextClientId := by
  have hU : U = 18446744073709551616 := by norm_num [U]
  rw [hU] at hg hn
  constructor
  · show ((s.gamesCompleted : Int) % ((U : Nat) : Int)).toNat = s.gamesCompleted
    rw [hU]
    omega
  · show ((s.nextClientId : Int) % ((U : Nat) : Int)).toNat = s.nextClientId
    rw [hU]
    omega

/-- C5: loading the document just written by the stats save reproduces the
games-completed and next-identity counters, and a second save/load cycle
with no intervening mutation reproduces them again (idempotence). -/
theorem c5_snapshot_round_trip_idempotent (s z z2 : Server) (t t2 : String)
    (hg : s.gamesCompleted < U) (hn : s.nextClientId < U) :
    ((parseStats (some (saveStatsDoc s t)) z).gamesCompleted = s.gamesCompleted ∧
     (parseStats (some (saveStatsDoc s t)) z).nextClientId = s.nextClientId) ∧
    ((parseStats (some (saveStatsDoc (parseStats (some (saveStatsDoc s t)) z) t2))
        z2).gamesCompleted = s.gamesCompleted ∧
     (parseStats (some (saveStatsDoc (parseStats (some (saveStatsDoc s t)) z) t2))
        z2).nextClientId = s.nextClientId) := by
  obtain ⟨h1, h2⟩ := parseStats_saveStats_fields s z t hg hn
  obtain ⟨h3, h4⟩ := parseStats_saveStats_fields (parseStats (some (saveStatsDoc s t)) z) z2 t2
    (by rw [h1]; exact hg) (by rw [h2]; exact hn)
  exact ⟨⟨h1, h2⟩, ⟨by rw [h3, h1], by rw [h4, h2]⟩⟩

/-- Witness for C5 at a concrete server state. -/
theorem c5_witness :
    (NewServer.gamesCompleted < U ∧ NewServer.nextClientId < U) ∧
    (((parseStats (some (saveStatsDoc NewServer "t1")) NewServer).gamesCompleted =
        NewServer.gamesCompleted ∧
      (parseStats (some (saveStatsDoc NewServer "t1")) NewServer).nextClientId =
        NewServer.nextClientId) ∧
     ((parseStats (some (saveStatsDoc (parseStats (some (saveStatsDoc NewServer "t1"))
          NewServer) "t2")) NewServer).gamesCompleted = NewServer.gamesCompleted ∧
      (parseStats (some (saveStatsDoc (parseStats (some (saveStatsDoc NewServer "t1"))
          NewServer) "t2")) NewServer).nextClientId = NewServer.nextClientId)) :=
  ⟨⟨by decide, by decide⟩,
   c5_snapshot_round_trip_idempotent NewServer NewServer NewServer "t1" "t2"
     (by decide) (by decide)⟩

/-- Counterexample for C6: the code checks only that the `type` field
exists (server.go line 193), not that it is string-valued.  After a valid
handshake, the payload `{"type":5}` — valid JSON whose `type` is not a
string — is forwarded to the session's packet handler (its type coerced to
the string "5") instead of being logged and discarded as the claim
states. -/
theorem c6_counterexample_nonstring_type_forwarded :
    (connStep (fun _ _ s => s) NewServer (some 1)
        (.val (.obj [("type", .num 5)])) 7 9).2.2 = Action.forwarded ∧
    isDropped Action.forwarded = false :=
  ⟨rfl, rfl⟩

/-- C6 (amended): a received payload that is not valid JSON, or whose
`type` field is absent, is logged and discarded — the server state and the
connection's session variable are unchanged — and the read loop goes on to
process the rest of the stream; the loop consumes every payload of the
stream, for any session handler, so the core never closes the connection
over such payloads, before or after a handshake.  (A present but
non-string `type` is instead coerced to its string rendering and processed
like any typed packet, per the counterexample.) -/
theorem c6_amended_bad_payloads_dropped_stream_continues
    (handler : Nat → JVal → Server → Server) (conn : Nat) (s : Server) (cur : Option Nat)
    (p : Payload) (now : Nat) (rest : List (Payload × Nat)) (hp : badPayload p) :
    (∃ a, connStep handler s cur p conn now = (s, cur, a) ∧ isDropped a = true) ∧
    (runConn handler conn s cur ((p, now) :: rest)).1 = (runConn handler conn s cur rest).1 ∧
    (runConn handler conn s cur ((p, now) :: rest)).2.1 =
      (runConn handler conn s cur rest).2.1 ∧
    (∀ l, (runConn handler conn s cur l).2.2.length = l.length) := by
  have hstep : ∃ a, connStep handler s cur p conn now = (s, cur, a) ∧ isDropped a = true := by
    cases p with
    | malformed raw => exact ⟨.dropInvalidJson, rfl, rfl⟩
    | val j =>
        have h : jget j "type" = none := hp
        exact ⟨.dropMissingType, by simp [connStep, h], rfl⟩
  obtain ⟨a, ha, hd⟩ := hstep
  refine ⟨⟨a, ha, hd⟩, ?_, ?_, fun l => runConn_length handler conn l s cur⟩
  · simp [runConn, ha]
  · simp [runConn, ha]

/-- Witness for C6 at a malformed payload followed by a STATS payload. -/
theorem c6_witness :
    badPayload (Payload.malformed "this is not json") ∧
    ((∃ a, connStep (fun _ _ s => s) NewServer none
        (Payload.malformed "this is not json") 3 4 = (NewServer, none, a) ∧
        isDropped a = true) ∧
     (runConn (fun _ _ s => s) 3 NewServer none
        [(Payload.malformed "this is not json", 4),
         (Payload.val (.obj [("type", .str "STATS")]), 5)]).1 =
       (runConn (fun _ _ s => s) 3 NewServer none
        [(Payload.val (.obj [("type", .str "STATS")]), 5)]).1 ∧
     (runConn (fun _ _ s => s) 3 NewServer none
        [(Payload.malformed "this is not json", 4),
         (Payload.val (.obj [("type", .str "STATS")]), 5)]).2.1 =
       (runConn (fun _ _ s => s) 3 NewServer none
        [(Payload.val (.obj [("type", .str "STATS")]), 5)]).2.1 ∧
     (∀ l, (runConn (fun _ _ s => s) 3 NewServer none l).2.2.length = l.length)) :=
  ⟨True.intro,
   c6_amended_bad_payloads_dropped_stream_continues (fun _ _ s => s) 3 NewServer none
     (Payload.malformed "this is not json") 4
     [(Payload.val (.obj [("type", .str "STATS")]), 5)] True.intro⟩

/-- Counterexample for C7: the claim says the STATS reply carries the
count of unique clients ever assigned.  On the fresh server no identity
has ever been assigned (the empty handshake history assigns the empty
list), yet the reply's `uniquePlayers` field carries the next-identity
counter 1, not 0. -/
theorem c7_counterexample_unique_players_off_by_one :
    runFreshHandshakes NewServer [] = some ([], NewServer) ∧
    ([] : List Nat).length = 0 ∧
    jget (statsReplyDoc NewServer) "uniquePlayers" = some (.num 1) ∧
    (1 : Int) ≠ 0 :=
  ⟨rfl, rfl, rfl, by decide⟩

/-- C7 (amended): a STATS packet is answered at any time, before or after
handshake, with a reply carrying the current value of the next-identity
counter (labelled `uniquePlayers` — one more than the number of
counter-assigned identities, not the count of clients ever assigned), the
games-completed counter, and the current online count; processing it
leaves the server state and the connection's session untouched, so no
session is created. -/
theorem c7_amended_stats_reply_counters_no_state_change
    (handler : Nat → JVal → Server → Server) (s : Server) (cur : Option Nat)
    (conn now : Nat) (j tv : JVal) (h1 : jget j "type" = some tv)
    (h2 : jstringOf (some tv) = "STATS") :
    connStep handler s cur (.val j) conn now = (s, cur, .statsReply (statsReplyDoc s)) ∧
    jget (statsReplyDoc s) "uniquePlayers" = some (.num s.nextClientId) ∧
    jget (statsReplyDoc s) "gamesCompleted" = some (.num s.gamesCompleted) ∧
    jget (statsReplyDoc s) "online" = some (.num s.onlineClients.length) := by
  refine ⟨?_, rfl, rfl, rfl⟩
  simp [connStep, h1, h2]

/-- Witness for C7, a pre-handshake STATS packet on the fresh server. -/
theorem c7_witness :
    jget (.obj [("type", JVal.str "STATS")]) "type" = some (JVal.str "STATS") ∧
    jstringOf (some (JVal.str "STATS")) = "STATS" ∧
    (connStep (fun _ _ s => s) NewServer none (.val (.obj [("type", JVal.str "STATS")])) 3 4 =
      (NewServer, none, .statsReply (statsReplyDoc NewServer)) ∧
     jget (statsReplyDoc NewServer) "uniquePlayers" = some (.num NewServer.nextClientId) ∧
     jget (statsReplyDoc NewServer) "gamesCompleted" = some (.num NewServer.gamesCompleted) ∧
     jget (statsReplyDoc NewServer) "online" =
       some (.num NewServer.onlineClients.length)) :=
  ⟨rfl, rfl,
   c7_amended_stats_reply_counters_no_state_change (fun _ _ s => s) NewServer none 3 4
     (.obj [("type", JVal.str "STATS")]) (JVal.str "STATS") rfl rfl⟩

/-- C8: one pass of the idle-room sweeper removes exactly the rooms whose
last-activity age strictly exceeds the 5-minute inactivity timeout and
retains the others; the pass is a pure deletion from the room mapping — it
leaves the online-client mapping and counters untouched and emits only log
lines, never a packet to any occupant.  The sweeper ticks every 5
seconds (`SWEEP_INTERVAL`). -/
theorem c8_sweep_removes_exactly_expired_rooms (now : Nat) (s : Server) :
    (∀ id r, (id, r) ∈ (cleanupInactiveRoomsOnce now s).1.rooms ↔
      ((id, r) ∈ s.rooms ∧ now - r.lastActivity ≤ INACTIVITY_TIMEOUT)) ∧
    (cleanupInactiveRoomsOnce now s).1.onlineClients = s.onlineClients ∧
    (cleanupInactiveRoomsOnce now s).1.gamesCompleted = s.gamesCompleted ∧
    (cleanupInactiveRoomsOnce now s).1.nextClientId = s.nextClientId ∧
    (∀ e ∈ (cleanupInactiveRoomsOnce now s).2, ∃ m, e = Effect.logLine m) ∧
    SWEEP_INTERVAL = 5 * 1000000000 ∧ INACTIVITY_TIMEOUT = 5 * 60 * 1000000000 := by
  refine ⟨?_, rfl, rfl, rfl, ?_, rfl, rfl⟩
  · intro id r
    rw [cleanupInactiveRoomsOnce]
    simp [List.mem_filter, Nat.not_lt]
  · intro e he
    rw [cleanupInactiveRoomsOnce] at he
    simp only [List.mem_map] at he
    obtain ⟨rp, _, hrp⟩ := he
    exact ⟨_, hrp.symm⟩

/-- C9: the claim states no operation releases a session-level mutex while
not holding it, in particular the operator disable path.  The code
violates this: when `disable <clientId>` finds the target online, it
executes `client.mu.Unlock()` twice (main.go lines 143 and 145) with no
intervening — indeed no prior — acquisition, the unlock-of-unlocked-mutex
runtime fault; the parallel `message` path locks before unlocking. -/
theorem c9_disable_path_releases_unheld_mutex :
    lockTraceOk disableFoundClientMuOps 0 = false ∧
    lockTraceOk messageFoundClientMuOps 0 = true :=
  ⟨rfl, rfl⟩

/-- C10: a handshake whose `roomId` field is absent or empty is accepted:
the room key resolves to the empty string, the resolved room is registered
under that key, and a second such handshake resolves to the very same room
with no change to the room mapping — all clients that omit a room id share
the one room keyed `""`. -/
theorem c10_empty_room_id_resolves_to_shared_room (s : Server) (p1 p2 : JVal)
    (cid1 cid2 n1 n2 : Nat)
    (h1 : jget p1 "roomId" = none ∨ jget p1 "roomId" = some (.str ""))
    (h2 : jget p2 "roomId" = none ∨ jget p2 "roomId" = some (.str "")) :
    roomKeyOf p1 = "" ∧ roomKeyOf p2 = "" ∧
    List.lookup "" ((findOrCreateRoom s p1 cid1 n1).2).rooms =
      some (findOrCreateRoom s p1 cid1 n1).1 ∧
    (findOrCreateRoom (findOrCreateRoom s p1 cid1 n1).2 p2 cid2 n2).1 =
      (findOrCreateRoom s p1 cid1 n1).1 ∧
    (findOrCreateRoom (findOrCreateRoom s p1 cid1 n1).2 p2 cid2 n2).2 =
      (findOrCreateRoom s p1 cid1 n1).2 := by
  have hk1 : roomKeyOf p1 = "" := by
    rcases h1 with h | h <;> simp [roomKeyOf, h, jstringOf]
  have hk2 : roomKeyOf p2 = "" := by
    rcases h2 with h | h <;> simp [roomKeyOf, h, jstringOf]
  have hlook : List.lookup "" ((findOrCreateRoom s p1 cid1 n1).2).rooms =
      some (findOrCreateRoom s p1 cid1 n1).1 := by
    rw [findOrCreateRoom, hk1]
    cases hl : List.lookup "" s.rooms with
    | some r => simp [hl]
    | none => simp [hl, lookup_ainsert_self]
  refine ⟨hk1, hk2, hlook, ?_, ?_⟩
  · rw [findOrCreateRoom, hk2, hlook]
  · rw [findOrCreateRoom, hk2, hlook]

/-- C3: for the resolved identity of a handshake, if a session with that
identity already exists in the resolved room the session is updated in
place — connection handle, state blob, team and last-activity timestamp
replaced, the identity field untouched (the update is a structure update
of the old session, so its identity is preserved) — and otherwise a new
session is constructed with exactly the handshake's data; in both cases
the resulting session is the one registered in the room's client mapping
(under the resolved room key) and in the registry's online-client
mapping. -/
theorem c3_reconnect_updates_in_place_else_creates (s : Server) (p : JVal)
    (conn now cid : Nat) :
    (List.lookup (roomKeyOf p) (attachClient s p conn now cid).2.rooms).bind
        (fun r => List.lookup cid r.clients) = some (attachClient s p conn now cid).1 ∧
    List.lookup cid (attachClient s p conn now cid).2.onlineClients =
      some (attachClient s p conn now cid).1 ∧
    (match List.lookup cid (findOrCreateRoom s p cid now).1.clients with
     | some old => (attachClient s p conn now cid).1 =
         { old with conn := conn, state := stateBlobOf p cid,
                    team := teamKeyOf p, lastActivity := now }
     | none => (attachClient s p conn now cid).1 =
         { id := cid, conn := conn, roomId := roomKeyOf p, team := teamKeyOf p,
           state := stateBlobOf p cid, lastActivity := now }) := by
  have hteam := findOrCreateTeam_clients (findOrCreateRoom s p cid now).1 (teamKeyOf p)
  have htfst := findOrCreateTeam_fst (findOrCreateRoom s p cid now).1 (teamKeyOf p)
  rw [attachClient]
  cases h : List.lookup cid (findOrCreateTeam (findOrCreateRoom s p cid now).1
      (teamKeyOf p)).2.clients with
  | some old =>
      have h2 : List.lookup cid (findOrCreateRoom s p cid now).1.clients = some old := by
        rw [← hteam]; exact h
      refine ⟨?_, ?_, ?_⟩
      · simp [lookup_ainsert_self]
      · simp [lookup_ainsert_self]
      · rw [h2]
        simp [htfst]
  | none =>
      have h2 : List.lookup cid (findOrCreateRoom s p cid now).1.clients = none := by
        rw [← hteam]; exact h
      refine ⟨?_, ?_, ?_⟩
      · simp [lookup_ainsert_self]
      · simp [lookup_ainsert_self]
      · rw [h2]
        simp [htfst]

/-- Witness for C10: an absent and an empty `roomId` on the fresh
server. -/
theorem c10_witness :
    (jget (JVal.obj []) "roomId" = none ∨
      jget (JVal.obj []) "roomId" = some (.str "")) ∧
    (jget (JVal.obj [("roomId", JVal.str "")]) "roomId" = none ∨
      jget (JVal.obj [("roomId", JVal.str "")]) "roomId" = some (.str "")) ∧
    (roomKeyOf (JVal.obj []) = "" ∧
     roomKeyOf (JVal.obj [("roomId", JVal.str "")]) = "" ∧
     List.lookup "" ((findOrCreateRoom NewServer (JVal.obj []) 1 10).2).rooms =
       some (findOrCreateRoom NewServer (JVal.obj []) 1 10).1 ∧
     (findOrCreateRoom (findOrCreateRoom NewServer (JVal.obj []) 1 10).2
        (JVal.obj [("roomId", JVal.str "")]) 2 20).1 =
       (findOrCreateRoom NewServer (JVal.obj []) 1 10).1 ∧
     (findOrCreateRoom (findOrCreateRoom NewServer (JVal.obj []) 1 10).2
        (JVal.obj [("roomId", JVal.str "")]) 2 20).2 =
       (findOrCreateRoom NewServer (JVal.obj []) 1 10).2) :=
  ⟨Or.inl rfl, Or.inr rfl,
   c10_empty_room_id_resolves_to_shared_room NewServer (JVal.obj [])
     (JVal.obj [("roomId", JVal.str "")]) 1 2 10 20 (Or.inl rfl) (Or.inr rfl)⟩

end Anchor
